import Mathlib

/-!
Verification of the uniform-continuity checker (src/streamlit_app.py).

The program has three parts relevant to the claims:

* `check_uniform_continuity (func_str, interval_type, a_sym, b_sym)`
  (lines 33-86): parses the function text with sympy, computes its
  singularities, and maps the interval tag plus one-sided limit
  information onto one of the Korean verdict strings, paired with a
  justification string and the parsed expression (or `None`).
* the submission handler (lines 114-138): parses the two bound strings,
  checks they are real-or-infinite, rejects finite bounds with a >= b,
  and only then invokes the classifier.
* the plot sampler (lines 165-168): evaluates the expression on a grid
  and replaces every infinite value by NaN before rendering.

The sympy engine (parse_expr / singularities / limit) is external; it is
embedded as an oracle record `SymEngine` whose methods return `Except`,
mirroring the fact that each call in the source is wrapped in
try/except.  Symbolic bound and limit values are embedded as `SymVal`:
a finite real (represented by a rational), one of the two sympy
infinities, or a non-real/unevaluated object (whose sympy
`is_infinite` is falsy and interval membership is false).
-/

/-- A sympy value as the classifier observes it: a finite real number,
`oo`, `-oo`, or some other object (complex point, unevaluated limit, ...)
whose `is_infinite` attribute is falsy and which lies in no real
interval. -/
inductive SymVal where
  | fin (q : ℚ)
  | posInf
  | negInf
  | nonReal
deriving DecidableEq

/-- Truthiness of the sympy `.is_infinite` attribute (`True` exactly on the
two infinities; `False`/`None` otherwise). -/
def SymVal.is_infinite : SymVal → Bool
  | .posInf => true
  | .negInf => true
  | _ => false

/-- Truthiness of the sympy `.is_real` attribute as the bound validator
uses it: true exactly on finite reals. -/
def SymVal.is_real : SymVal → Bool
  | .fin _ => true
  | _ => false

/-- Embedding of `v.evalf()` for a bound value; only consulted after
both bounds passed the finiteness test, so only the `fin` case matters. -/
def SymVal.evalf : SymVal → ℚ
  | .fin q => q
  | _ => 0

/-- The sympy membership test `p in sympy.Interval(a_sym, b_sym)` used in
the closed-interval branch: a real point between the two finite bounds
(endpoints included); infinities and non-real points are never members. -/
def SymVal.memClosed (p a b : SymVal) : Bool :=
  match p, a, b with
  | .fin q, .fin qa, .fin qb => decide (qa ≤ q ∧ q ≤ qb)
  | _, _, _ => false

/-- The four values of the interval-type radio button:
`cc` = the string tag with both endpoints closed,
`oo` = both endpoints open,
`co` = closed left / open right,
`oc` = open left / closed right. -/
inductive IntervalType where
  | cc
  | oo
  | co
  | oc
deriving DecidableEq

/-- Direction argument of `sympy.limit`: `fromRight` is the plus
direction (x → c⁺), `fromLeft` is the minus direction (x → c⁻). -/
inductive LimDir where
  | fromRight
  | fromLeft
deriving DecidableEq

/-- The external symbolic engine, over an abstract expression type `E`.
Each method models one sympy call the program makes, and each may fail,
because every such call in the source sits inside a `try`:
`parse` is the parse_expr call on the function text (line 36),
`singularities` is the sympy.singularities call (line 41),
`limit f c d` is the sympy.limit call with direction d (lines 65, 74). -/
structure SymEngine (E : Type) where
  parse : String → Except String E
  singularities : E → Except Unit (List SymVal)
  limit : E → SymVal → LimDir → Except Unit SymVal

/-- Lines 40-43 of the source: the singularity computation with its
`try`/`except` wrapper, an exception degrading to the empty collection
(`discontinuities = []`). -/
def discontinuitiesOf {E : Type} (eng : SymEngine E) (f : E) : List SymVal :=
  match eng.singularities f with
  | .ok ds => ds
  | .error _ => []

/-- The justification string of the classifier, abstracted to which
message template was instantiated and with which parameters:
`parseError msg` is the line-38 message embedding the parser exception,
`closedNeedsFinite` is the line-47 message,
`discontinuousAt a b p` is the line-53 message naming the point `p`,
`heineCantor a b` is the line-55 message citing the Heine-Cantor theorem,
`empty` is the initial `reason = ""` of line 60,
`divergesLeft a` is the line-68 message (divergence as x → a⁺),
`divergesRight b` is the line-77 message (divergence as x → b⁻),
`finiteLimitsAtOpenEnds` is the line-83 message. -/
inductive Reason where
  | parseError (msg : String)
  | closedNeedsFinite
  | discontinuousAt (a b p : SymVal)
  | heineCantor (a b : SymVal)
  | empty
  | divergesLeft (a : SymVal)
  | divergesRight (b : SymVal)
  | finiteLimitsAtOpenEnds
deriving DecidableEq

/-- The triple returned by `check_uniform_continuity`: a verdict string,
a justification, and the parsed expression (absent exactly on parse
failure). -/
structure ClassifyResult (E : Type) where
  verdict : String
  reason : Reason
  expr : Option E
deriving DecidableEq

/-- Embedding of `check_uniform_continuity` (src/streamlit_app.py,
lines 33-86).  The structure follows the source line by line: parse the
function text (returning the error verdict on failure), compute the
singularities with exceptions degraded to the empty list, then branch on
the interval tag.  Closed tag: reject infinite bounds, otherwise scan
the singularities for one inside `[a, b]`.  Other tags: the left-endpoint
check (tags with an open left end) may clear `is_uc`, the right-endpoint
check runs only while `is_uc` still holds, every limit exception is
swallowed, and the final verdict follows `is_uc`.  The unreachable
trailing `return "판단 불가"` of line 86 has no counterpart because every
branch above it returns. -/
def check_uniform_continuity {E : Type} (eng : SymEngine E) (func_str : String)
    (interval_type : IntervalType) (a_sym b_sym : SymVal) : ClassifyResult E :=
  match eng.parse func_str with
  | .error e => ⟨"오류", .parseError e, none⟩
  | .ok f =>
    let discontinuities : List SymVal := discontinuitiesOf eng f
    match interval_type with
    | .cc =>
      if a_sym.is_infinite || b_sym.is_infinite then
        ⟨"판별 불가", .closedNeedsFinite, some f⟩
      else
        match discontinuities.find? (fun p => p.memClosed a_sym b_sym) with
        | some p => ⟨"평등연속 아님", .discontinuousAt a_sym b_sym p, some f⟩
        | none => ⟨"평등연속", .heineCantor a_sym b_sym, some f⟩
    | tag =>
      let st1 : Bool × Reason :=
        if tag = .oo ∨ tag = .oc then
          match eng.limit f a_sym .fromRight with
          | .ok limit_a =>
            if limit_a.is_infinite then (false, .divergesLeft a_sym)
            else (true, .empty)
          | .error _ => (true, .empty)
        else (true, .empty)
      let st2 : Bool × Reason :=
        if st1.1 ∧ (tag = .oo ∨ tag = .co) then
          match eng.limit f b_sym .fromLeft with
          | .ok limit_b =>
            if limit_b.is_infinite then (false, .divergesRight b_sym)
            else st1
          | .error _ => st1
        else st1
      if st2.1 then ⟨"평등연속", .finiteLimitsAtOpenEnds, some f⟩
      else ⟨"평등연속 아님", st2.2, some f⟩

/-- Outcome of one form submission: the two `st.stop()` paths (bound
parse/validation failure at line 134, ordering failure at line 130) and
the path that reaches the classifier, recorded together with the bound
values it was invoked with. -/
inductive SubmitOutcome (E : Type) where
  | boundParseError
  | orderError
  | classified (a_sym b_sym : SymVal) (result : ClassifyResult E)
deriving DecidableEq

/-- Embedding of the submission handler (src/streamlit_app.py, lines
114-138).  `bp` is the bound-parsing oracle: the lowercase/`inf`→`oo`/
`e`→`E` rewriting of lines 118-119 followed by `parse_expr` of lines
121-122, failing on any exception.  A parsed bound that is neither real
nor infinite raises (line 125), which the surrounding `except` turns
into the same inline-error stop.  When both bounds are finite, the
handler compares `a_sym.evalf() >= b_sym.evalf()` (line 129) and stops
with the ordering error; otherwise it calls the classifier (line 138). -/
def handleSubmission {E : Type} (eng : SymEngine E) (bp : String → Except Unit SymVal)
    (func_input a_str b_str : String) (interval_type : IntervalType) : SubmitOutcome E :=
  match bp a_str, bp b_str with
  | .ok a_sym, .ok b_sym =>
    if !(a_sym.is_real || a_sym.is_infinite) || !(b_sym.is_real || b_sym.is_infinite) then
      .boundParseError
    else if (!a_sym.is_infinite && !b_sym.is_infinite) && decide (a_sym.evalf ≥ b_sym.evalf) then
      .orderError
    else
      .classified a_sym b_sym (check_uniform_continuity eng func_input interval_type a_sym b_sym)
  | _, _ => .boundParseError

/-- A numpy floating-point sample value as the plot code observes it:
finite, one of the two infinities, or NaN. -/
inductive NumVal where
  | val (q : ℚ)
  | posInf
  | negInf
  | nan
deriving DecidableEq

/-- Embedding of `np.isinf` (true on both infinities). -/
def NumVal.isinf : NumVal → Bool
  | .posInf => true
  | .negInf => true
  | _ => false

/-- Embedding of `np.isneginf` (true only on negative infinity). -/
def NumVal.isneginf : NumVal → Bool
  | .negInf => true
  | _ => false

/-- Embedding of the plot sampling of lines 165-168: evaluate the
lambdified expression on the sample grid, then execute
`y_vals[np.isinf(y_vals) | np.isneginf(y_vals)] = np.nan` pointwise. -/
def samplePlotValues (f_lambda : ℚ → NumVal) (x_vals : List ℚ) : List NumVal :=
  (x_vals.map f_lambda).map (fun y => if y.isinf || y.isneginf then .nan else y)

/-! ### Concrete engine instances, used to evaluate the embedding on the
worked examples of the specification and as witnesses. -/

/-- Engine behaving as sympy does on `sin(x)`: parsing succeeds, the set
of real singularities is empty, and every one-sided limit evaluates to a
finite (bounded) value. -/
def engSin : SymEngine String :=
  ⟨fun s => Except.ok s, fun _ => Except.ok [], fun _ _ _ => Except.ok (SymVal.fin 1)⟩

/-- Engine behaving as sympy does on `1/x`: parsing succeeds, the
singularity set is `{0}`, the limit as x → 0⁺ is `oo`, the limit as
x → 0⁻ is `-oo`, and limits at other points are finite. -/
def engRecip : SymEngine String :=
  ⟨fun s => Except.ok s,
   fun _ => Except.ok [SymVal.fin 0],
   fun _ c d =>
     if c = SymVal.fin 0 then
       Except.ok (if d = LimDir.fromRight then SymVal.posInf else SymVal.negInf)
     else Except.ok (SymVal.fin 1)⟩

/-- Engine on which function parsing itself fails with a fixed message. -/
def engParseFail : SymEngine String :=
  ⟨fun _ => Except.error "invalid syntax", fun _ => Except.ok [],
   fun _ _ _ => Except.ok (SymVal.fin 1)⟩

/-- Engine on which parsing succeeds but every singularity and limit
computation raises. -/
def engFlaky : SymEngine String :=
  ⟨fun s => Except.ok s, fun _ => Except.error (), fun _ _ _ => Except.error ()⟩

/-- Bound parser behaving as lines 118-125 do on the documented inputs:
`"-inf"`/`"inf"` become the infinities, a decimal numeral becomes the
corresponding finite real, anything else fails. -/
def bpBasic (s : String) : Except Unit SymVal :=
  if s = "inf" then Except.ok SymVal.posInf
  else if s = "-inf" then Except.ok SymVal.negInf
  else if s = "1" then Except.ok (SymVal.fin 1)
  else if s = "5" then Except.ok (SymVal.fin 5)
  else Except.error ()

example :
    check_uniform_continuity engSin "sin(x)" IntervalType.oo SymVal.negInf SymVal.posInf =
      ⟨"평등연속", Reason.finiteLimitsAtOpenEnds, some "sin(x)"⟩ := by decide

example :
    check_uniform_continuity engRecip "1/x" IntervalType.oo (SymVal.fin 0) (SymVal.fin 1) =
      ⟨"평등연속 아님", Reason.divergesLeft (SymVal.fin 0), some "1/x"⟩ := by decide

example :
    check_uniform_continuity engRecip "1/x" IntervalType.cc (SymVal.fin (-1)) (SymVal.fin 1) =
      ⟨"평등연속 아님",
        Reason.discontinuousAt (SymVal.fin (-1)) (SymVal.fin 1) (SymVal.fin 0),
        some "1/x"⟩ := by decide

example :
    check_uniform_continuity engRecip "1/x" IntervalType.cc (SymVal.fin 1) (SymVal.fin 2) =
      ⟨"평등연속", Reason.heineCantor (SymVal.fin 1) (SymVal.fin 2), some "1/x"⟩ := by decide

example :
    check_uniform_continuity engSin "sin(x)" IntervalType.cc SymVal.negInf SymVal.posInf =
      ⟨"판별 불가", Reason.closedNeedsFinite, some "sin(x)"⟩ := by decide

example :
    check_uniform_continuity engParseFail "sin(" IntervalType.oo (SymVal.fin 0) (SymVal.fin 1) =
      ⟨"오류", Reason.parseError "invalid syntax", none⟩ := by decide

example :
    handleSubmission engSin bpBasic "sin(x)" "5" "1" IntervalType.cc =
      SubmitOutcome.orderError := by decide

example :
    handleSubmission engSin bpBasic "sin(x)" "1" "5" IntervalType.cc =
      SubmitOutcome.classified (SymVal.fin 1) (SymVal.fin 5)
        ⟨"평등연속", Reason.heineCantor (SymVal.fin 1) (SymVal.fin 5), some "sin(x)"⟩ := by
  decide

/-! ### Claim theorems -/

/-- C6: if parsing the function text fails, the classifier returns the
error verdict with the raw parser message embedded in the justification
and no expression.  The theorem constrains only the `parse` component of
the engine, so the result is the same whatever the singularity and limit
oracles would answer: no singularity or limit computation influences the
outcome of that submission. -/
theorem spec_C6 {E : Type} (eng : SymEngine E) (func_str msg : String)
    (tag : IntervalType) (a_sym b_sym : SymVal)
    (hp : eng.parse func_str = Except.error msg) :
    check_uniform_continuity eng func_str tag a_sym b_sym =
      ⟨"오류", Reason.parseError msg, none⟩ := by
  simp [check_uniform_continuity, hp]

/-- Witness for C6 at a concrete engine and input. -/
theorem spec_C6_witness :
    check_uniform_continuity engParseFail "sin(" IntervalType.oo (SymVal.fin 0) (SymVal.fin 1) =
      ⟨"오류", Reason.parseError "invalid syntax", none⟩ :=
  spec_C6 engParseFail "sin(" "invalid syntax" IntervalType.oo (SymVal.fin 0) (SymVal.fin 1) rfl

/-- C4: on the closed tag with an infinite bound, every function whose
text parses is classified "판별 불가" (cannot classify); moreover the
result agrees with that of any engine with the same parser, so neither
the singularity-membership scan nor any limit computation plays a part
in the outcome. -/
theorem spec_C4 {E : Type} (eng : SymEngine E) (func_str : String) (f : E)
    (a_sym b_sym : SymVal)
    (hp : eng.parse func_str = Except.ok f)
    (hinf : (a_sym.is_infinite || b_sym.is_infinite) = true) :
    check_uniform_continuity eng func_str IntervalType.cc a_sym b_sym =
      ⟨"판별 불가", Reason.closedNeedsFinite, some f⟩ ∧
    ∀ eng' : SymEngine E, eng'.parse func_str = eng.parse func_str →
      check_uniform_continuity eng' func_str IntervalType.cc a_sym b_sym =
        check_uniform_continuity eng func_str IntervalType.cc a_sym b_sym := by
  constructor
  · simp [check_uniform_continuity, hp, hinf]
  · intro eng' hp'
    rw [hp] at hp'
    simp [check_uniform_continuity, hp, hp', hinf]

/-- Witness for C4: `sin(x)` on `[-oo, oo]`. -/
theorem spec_C4_witness :
    check_uniform_continuity engSin "sin(x)" IntervalType.cc SymVal.negInf SymVal.posInf =
      ⟨"판별 불가", Reason.closedNeedsFinite, some "sin(x)"⟩ ∧
    ∀ eng' : SymEngine String, eng'.parse "sin(x)" = engSin.parse "sin(x)" →
      check_uniform_continuity eng' "sin(x)" IntervalType.cc SymVal.negInf SymVal.posInf =
        check_uniform_continuity engSin "sin(x)" IntervalType.cc SymVal.negInf SymVal.posInf :=
  spec_C4 engSin "sin(x)" "sin(x)" SymVal.negInf SymVal.posInf rfl rfl

/-- C9: on every input the verdict of the classifier is one of the four
strings 오류, 판별 불가, 평등연속 아님, 평등연속; in particular the
fifth verdict string 판단 불가 of the trailing fallback line 86 is never
returned (that line is unreachable: every branch before it returns). -/
theorem spec_C9 {E : Type} (eng : SymEngine E) (func_str : String)
    (tag : IntervalType) (a_sym b_sym : SymVal) :
    ((check_uniform_continuity eng func_str tag a_sym b_sym).verdict = "오류" ∨
     (check_uniform_continuity eng func_str tag a_sym b_sym).verdict = "판별 불가" ∨
     (check_uniform_continuity eng func_str tag a_sym b_sym).verdict = "평등연속 아님" ∨
     (check_uniform_continuity eng func_str tag a_sym b_sym).verdict = "평등연속") ∧
    (check_uniform_continuity eng func_str tag a_sym b_sym).verdict ≠ "판단 불가" := by
  rcases hp : eng.parse func_str with msg | f
  · simp [check_uniform_continuity, hp]
  · cases tag <;>
      simp only [check_uniform_continuity, hp] <;>
      repeat' split <;>
      try simp_all

/-- C10: the expression component of the result is `none` exactly when
the verdict is the parse-error verdict 오류; in particular the
cannot-classify outcome (closed tag, infinite bound) still carries the
parsed expression, which is what the plotting guard of line 147 tests. -/
theorem spec_C10 {E : Type} (eng : SymEngine E) (func_str : String)
    (tag : IntervalType) (a_sym b_sym : SymVal) :
    ((check_uniform_continuity eng func_str tag a_sym b_sym).expr = none ↔
     (check_uniform_continuity eng func_str tag a_sym b_sym).verdict = "오류") ∧
    (∀ f : E, eng.parse func_str = Except.ok f → tag = IntervalType.cc →
      (a_sym.is_infinite || b_sym.is_infinite) = true →
      (check_uniform_continuity eng func_str tag a_sym b_sym).verdict = "판별 불가" ∧
      (check_uniform_continuity eng func_str tag a_sym b_sym).expr = some f) := by
  constructor
  · rcases hp : eng.parse func_str with msg | f
    · simp [check_uniform_continuity, hp]
    · cases tag <;>
        simp only [check_uniform_continuity, hp] <;>
        repeat' split <;>
        try simp_all
  · intro f hp htag hinf
    subst htag
    simp [check_uniform_continuity, hp, hinf]

/-- C1: on the closed tag with both bounds finite, the classifier
returns the not-uniformly-continuous verdict naming an offending
computed singularity exactly when some computed singularity lies in the
closed interval (endpoints included); otherwise it returns the
uniformly-continuous verdict with the Heine-Cantor justification. -/
theorem spec_C1 {E : Type} (eng : SymEngine E) (func_str : String) (f : E)
    (qa qb : ℚ) (ds : List SymVal)
    (hp : eng.parse func_str = Except.ok f)
    (hs : eng.singularities f = Except.ok ds) :
    ((∃ p ∈ ds, p.memClosed (SymVal.fin qa) (SymVal.fin qb) = true) →
      ∃ p ∈ ds, p.memClosed (SymVal.fin qa) (SymVal.fin qb) = true ∧
        check_uniform_continuity eng func_str IntervalType.cc (SymVal.fin qa) (SymVal.fin qb) =
          ⟨"평등연속 아님", Reason.discontinuousAt (SymVal.fin qa) (SymVal.fin qb) p,
            some f⟩) ∧
    ((∀ p ∈ ds, p.memClosed (SymVal.fin qa) (SymVal.fin qb) = false) →
      check_uniform_continuity eng func_str IntervalType.cc (SymVal.fin qa) (SymVal.fin qb) =
        ⟨"평등연속", Reason.heineCantor (SymVal.fin qa) (SymVal.fin qb), some f⟩) := by
  have hred : ∀ r,
      ds.find? (fun p => p.memClosed (SymVal.fin qa) (SymVal.fin qb)) = r →
      check_uniform_continuity eng func_str IntervalType.cc (SymVal.fin qa) (SymVal.fin qb) =
        (match r with
         | some p =>
           ⟨"평등연속 아님", Reason.discontinuousAt (SymVal.fin qa) (SymVal.fin qb) p, some f⟩
         | none =>
           ⟨"평등연속", Reason.heineCantor (SymVal.fin qa) (SymVal.fin qb), some f⟩) := by
    intro r hr
    simp [check_uniform_continuity, hp, discontinuitiesOf, hs, SymVal.is_infinite, hr]
  constructor
  · rintro ⟨p, hmem, hpm⟩
    rcases hfind : ds.find? (fun p => p.memClosed (SymVal.fin qa) (SymVal.fin qb)) with _ | p'
    · exact absurd hpm (by simpa using List.find?_eq_none.mp hfind p hmem)
    · exact ⟨p', List.mem_of_find?_eq_some hfind, by simpa using List.find?_some hfind,
        hred _ hfind⟩
  · intro hall
    rcases hfind : ds.find? (fun p => p.memClosed (SymVal.fin qa) (SymVal.fin qb)) with _ | p'
    · exact hred _ hfind
    · have h1 := List.find?_some hfind
      have h2 := List.mem_of_find?_eq_some hfind
      simp [hall p' h2] at h1

/-- Witness for C1: `1/x` on `[-1, 1]` is rejected at the singularity 0. -/
theorem spec_C1_witness :
    check_uniform_continuity engRecip "1/x" IntervalType.cc (SymVal.fin (-1)) (SymVal.fin 1) =
      ⟨"평등연속 아님",
        Reason.discontinuousAt (SymVal.fin (-1)) (SymVal.fin 1) (SymVal.fin 0),
        some "1/x"⟩ := by
  obtain ⟨h1, -⟩ := spec_C1 engRecip "1/x" "1/x" (-1) 1 [SymVal.fin 0] rfl rfl
  obtain ⟨p, hmem, -, heq⟩ := h1 ⟨SymVal.fin 0, by decide, by decide⟩
  have hp0 : p = SymVal.fin 0 := by simpa using hmem
  rw [hp0] at heq
  exact heq

/-- C2: on a tag with an open left endpoint, an infinite right-hand
limit at `a` yields the not-uniformly-continuous verdict citing
divergence at the left endpoint; and the result agrees with that of any
engine with the same parser, singularity oracle and right-hand limits,
so the left-hand limit at the right endpoint `b` is never consulted. -/
theorem spec_C2 {E : Type} (eng : SymEngine E) (func_str : String) (f : E)
    (tag : IntervalType) (a_sym b_sym l : SymVal)
    (htag : tag = IntervalType.oo ∨ tag = IntervalType.oc)
    (hp : eng.parse func_str = Except.ok f)
    (hl : eng.limit f a_sym LimDir.fromRight = Except.ok l)
    (hinf : l.is_infinite = true) :
    check_uniform_continuity eng func_str tag a_sym b_sym =
      ⟨"평등연속 아님", Reason.divergesLeft a_sym, some f⟩ ∧
    ∀ eng' : SymEngine E,
      eng'.parse = eng.parse → eng'.singularities = eng.singularities →
      (∀ (g : E) (c : SymVal),
        eng'.limit g c LimDir.fromRight = eng.limit g c LimDir.fromRight) →
      check_uniform_continuity eng' func_str tag a_sym b_sym =
        check_uniform_continuity eng func_str tag a_sym b_sym := by
  have key : ∀ eng2 : SymEngine E, eng2.parse func_str = Except.ok f →
      eng2.limit f a_sym LimDir.fromRight = Except.ok l →
      check_uniform_continuity eng2 func_str tag a_sym b_sym =
        ⟨"평등연속 아님", Reason.divergesLeft a_sym, some f⟩ := by
    intro eng2 hp2 hl2
    rcases htag with h | h <;> subst h <;>
      simp [check_uniform_continuity, hp2, hl2, hinf]
  refine ⟨key eng hp hl, ?_⟩
  intro eng' hpe hse hle
  rw [key eng' (by rw [hpe]; exact hp) ((hle f a_sym).trans hl), key eng hp hl]

/-- Witness for C2: `1/x` on `(0, 1)` diverges at the left endpoint. -/
theorem spec_C2_witness :
    check_uniform_continuity engRecip "1/x" IntervalType.oo (SymVal.fin 0) (SymVal.fin 1) =
      ⟨"평등연속 아님", Reason.divergesLeft (SymVal.fin 0), some "1/x"⟩ ∧
    ∀ eng' : SymEngine String,
      eng'.parse = engRecip.parse → eng'.singularities = engRecip.singularities →
      (∀ (g : String) (c : SymVal),
        eng'.limit g c LimDir.fromRight = engRecip.limit g c LimDir.fromRight) →
      check_uniform_continuity eng' "1/x" IntervalType.oo (SymVal.fin 0) (SymVal.fin 1) =
        check_uniform_continuity engRecip "1/x" IntervalType.oo (SymVal.fin 0) (SymVal.fin 1) :=
  spec_C2 engRecip "1/x" "1/x" IntervalType.oo (SymVal.fin 0) (SymVal.fin 1) SymVal.posInf
    (Or.inl rfl) rfl rfl rfl

/-- C3: on a non-closed tag where the left-endpoint check did not fire,
an infinite left-hand limit at an open right endpoint yields the
not-uniformly-continuous verdict citing divergence at the right
endpoint; and if the right-endpoint check does not fire either, the
verdict is uniformly continuous with the finite-limits justification. -/
theorem spec_C3 {E : Type} (eng : SymEngine E) (func_str : String) (f : E)
    (tag : IntervalType) (a_sym b_sym : SymVal)
    (hp : eng.parse func_str = Except.ok f)
    (htag : tag ≠ IntervalType.cc)
    (hleft : (tag = IntervalType.oo ∨ tag = IntervalType.oc) →
      ∀ l, eng.limit f a_sym LimDir.fromRight = Except.ok l → l.is_infinite = false) :
    ((tag = IntervalType.oo ∨ tag = IntervalType.co) →
      ∀ l, eng.limit f b_sym LimDir.fromLeft = Except.ok l → l.is_infinite = true →
        check_uniform_continuity eng func_str tag a_sym b_sym =
          ⟨"평등연속 아님", Reason.divergesRight b_sym, some f⟩) ∧
    (((tag = IntervalType.oo ∨ tag = IntervalType.co) →
        ∀ l, eng.limit f b_sym LimDir.fromLeft = Except.ok l → l.is_infinite = false) →
      check_uniform_continuity eng func_str tag a_sym b_sym =
        ⟨"평등연속", Reason.finiteLimitsAtOpenEnds, some f⟩) := by
  cases tag with
  | cc => exact absurd rfl htag
  | oo =>
    have hl' := hleft (Or.inl rfl)
    constructor
    · rintro - l hlb hlinf
      rcases hla : eng.limit f a_sym LimDir.fromRight with u | la
      · simp [check_uniform_continuity, hp, hla, hlb, hlinf]
      · have hfin := hl' la hla
        simp [check_uniform_continuity, hp, hla, hlb, hlinf, hfin]
    · intro hrb
      rcases hla : eng.limit f a_sym LimDir.fromRight with u | la
      · rcases hlb : eng.limit f b_sym LimDir.fromLeft with u' | lb
        · simp [check_uniform_continuity, hp, hla, hlb]
        · have hfin := hrb (Or.inl rfl) lb hlb
          simp [check_uniform_continuity, hp, hla, hlb, hfin]
      · have hafin := hl' la hla
        rcases hlb : eng.limit f b_sym LimDir.fromLeft with u' | lb
        · simp [check_uniform_continuity, hp, hla, hlb, hafin]
        · have hfin := hrb (Or.inl rfl) lb hlb
          simp [check_uniform_continuity, hp, hla, hlb, hafin, hfin]
  | co =>
    constructor
    · rintro - l hlb hlinf
      simp [check_uniform_continuity, hp, hlb, hlinf]
    · intro hrb
      rcases hlb : eng.limit f b_sym LimDir.fromLeft with u' | lb
      · simp [check_uniform_continuity, hp, hlb]
      · have hfin := hrb (Or.inr rfl) lb hlb
        simp [check_uniform_continuity, hp, hlb, hfin]
  | oc =>
    constructor
    · rintro (h | h) <;> simp at h
    · intro _
      have hl' := hleft (Or.inr rfl)
      rcases hla : eng.limit f a_sym LimDir.fromRight with u | la
      · simp [check_uniform_continuity, hp, hla]
      · have hafin := hl' la hla
        simp [check_uniform_continuity, hp, hla, hafin]

/-- Witness for C3: `sin(x)` on `(-oo, oo)` with finite limits at both
open ends is classified uniformly continuous. -/
theorem spec_C3_witness :
    check_uniform_continuity engSin "sin(x)" IntervalType.oo SymVal.negInf SymVal.posInf =
      ⟨"평등연속", Reason.finiteLimitsAtOpenEnds, some "sin(x)"⟩ := by
  obtain ⟨-, h2⟩ := spec_C3 engSin "sin(x)" "sin(x)" IntervalType.oo SymVal.negInf SymVal.posInf
    rfl (by decide)
    (by intro _ l hl; cases hl; rfl)
  exact h2 (by intro _ l hl; cases hl; rfl)

/-- The classifier consults the engine only through the parse result,
the degraded singularity list of the parsed expression, and the two
one-sided limits at the two interval endpoints; engines agreeing there
classify identically. -/
theorem check_uniform_continuity_congr {E : Type} (eng eng' : SymEngine E)
    (func_str : String) (f : E) (tag : IntervalType) (a_sym b_sym : SymVal)
    (hp : eng.parse func_str = Except.ok f)
    (hp' : eng'.parse func_str = Except.ok f)
    (hd : discontinuitiesOf eng' f = discontinuitiesOf eng f)
    (hla : eng'.limit f a_sym LimDir.fromRight = eng.limit f a_sym LimDir.fromRight)
    (hlb : eng'.limit f b_sym LimDir.fromLeft = eng.limit f b_sym LimDir.fromLeft) :
    check_uniform_continuity eng' func_str tag a_sym b_sym =
      check_uniform_continuity eng func_str tag a_sym b_sym := by
  simp only [check_uniform_continuity, hp, hp', hd, hla, hlb]

/-- C5: every symbolic-engine exception inside the classifier is caught
and treated as no evidence.  (1) A failed singularity computation makes
the classifier behave exactly as an otherwise-identical engine whose
singularity set is empty; (2) in particular a finite closed interval is
then classified uniformly continuous.  (3)/(4) A failed one-sided limit
makes the classifier behave exactly as an engine returning a finite
value for that limit; (5) in particular when both endpoint limit
computations fail on a non-closed tag the verdict is uniformly
continuous.  So failures bias toward the positive verdict, and the
classifier is a total function: no exception escapes. -/
theorem spec_C5 {E : Type} (eng : SymEngine E) (func_str : String) (f : E)
    (hp : eng.parse func_str = Except.ok f) :
    (∀ u, eng.singularities f = Except.error u →
      ∀ eng' : SymEngine E, eng'.parse func_str = Except.ok f →
        eng'.singularities f = Except.ok [] → eng'.limit = eng.limit →
        ∀ tag a_sym b_sym,
          check_uniform_continuity eng' func_str tag a_sym b_sym =
            check_uniform_continuity eng func_str tag a_sym b_sym) ∧
    (∀ u, eng.singularities f = Except.error u →
      ∀ qa qb : ℚ,
        check_uniform_continuity eng func_str IntervalType.cc
            (SymVal.fin qa) (SymVal.fin qb) =
          ⟨"평등연속", Reason.heineCantor (SymVal.fin qa) (SymVal.fin qb), some f⟩) ∧
    (∀ tag, tag ≠ IntervalType.cc → ∀ a_sym b_sym u (q : ℚ),
      eng.limit f a_sym LimDir.fromRight = Except.error u →
      ∀ eng' : SymEngine E, eng'.parse func_str = Except.ok f →
        discontinuitiesOf eng' f = discontinuitiesOf eng f →
        eng'.limit f a_sym LimDir.fromRight = Except.ok (SymVal.fin q) →
        eng'.limit f b_sym LimDir.fromLeft = eng.limit f b_sym LimDir.fromLeft →
        check_uniform_continuity eng' func_str tag a_sym b_sym =
          check_uniform_continuity eng func_str tag a_sym b_sym) ∧
    (∀ tag, tag ≠ IntervalType.cc → ∀ a_sym b_sym u (q : ℚ),
      eng.limit f b_sym LimDir.fromLeft = Except.error u →
      ∀ eng' : SymEngine E, eng'.parse func_str = Except.ok f →
        discontinuitiesOf eng' f = discontinuitiesOf eng f →
        eng'.limit f b_sym LimDir.fromLeft = Except.ok (SymVal.fin q) →
        eng'.limit f a_sym LimDir.fromRight = eng.limit f a_sym LimDir.fromRight →
        check_uniform_continuity eng' func_str tag a_sym b_sym =
          check_uniform_continuity eng func_str tag a_sym b_sym) ∧
    (∀ tag, tag ≠ IntervalType.cc → ∀ a_sym b_sym ua ub,
      eng.limit f a_sym LimDir.fromRight = Except.error ua →
      eng.limit f b_sym LimDir.fromLeft = Except.error ub →
      check_uniform_continuity eng func_str tag a_sym b_sym =
        ⟨"평등연속", Reason.finiteLimitsAtOpenEnds, some f⟩) := by
  refine ⟨?_, ?_, ?_, ?_, ?_⟩
  · intro u hu eng' hp' hs' hlim tag a_sym b_sym
    exact check_uniform_continuity_congr eng eng' func_str f tag a_sym b_sym hp hp'
      (by simp [discontinuitiesOf, hu, hs']) (by rw [hlim]) (by rw [hlim])
  · intro u hu qa qb
    simp [check_uniform_continuity, hp, discontinuitiesOf, hu, SymVal.is_infinite]
  · intro tag htag a_sym b_sym u q herr eng' hp' hd hl' hlb
    cases tag with
    | cc => exact absurd rfl htag
    | oo => simp [check_uniform_continuity, hp, hp', hd, herr, hl', hlb, SymVal.is_infinite]
    | co => simp [check_uniform_continuity, hp, hp', hd, hlb]
    | oc => simp [check_uniform_continuity, hp, hp', hd, herr, hl', SymVal.is_infinite]
  · intro tag htag a_sym b_sym u q herr eng' hp' hd hl' hla
    cases tag with
    | cc => exact absurd rfl htag
    | oo => simp [check_uniform_continuity, hp, hp', hd, herr, hl', hla, SymVal.is_infinite]
    | co => simp [check_uniform_continuity, hp, hp', hd, herr, hl', SymVal.is_infinite]
    | oc => simp [check_uniform_continuity, hp, hp', hd, hla]
  · intro tag htag a_sym b_sym ua ub herra herrb
    cases tag with
    | cc => exact absurd rfl htag
    | oo => simp [check_uniform_continuity, hp, herra, herrb]
    | co => simp [check_uniform_continuity, hp, herrb]
    | oc => simp [check_uniform_continuity, hp, herra]

/-- Witness for C5 at the engine on which every singularity and limit
computation raises: `1/x` on the open interval `(0, 1)` and on the
closed interval `[0, 1]` is classified uniformly continuous. -/
theorem spec_C5_witness :
    check_uniform_continuity engFlaky "1/x" IntervalType.cc (SymVal.fin 0) (SymVal.fin 1) =
      ⟨"평등연속", Reason.heineCantor (SymVal.fin 0) (SymVal.fin 1), some "1/x"⟩ ∧
    check_uniform_continuity engFlaky "1/x" IntervalType.oo (SymVal.fin 0) (SymVal.fin 1) =
      ⟨"평등연속", Reason.finiteLimitsAtOpenEnds, some "1/x"⟩ := by
  obtain ⟨-, h2, -, -, h5⟩ := spec_C5 engFlaky "1/x" "1/x" rfl
  exact ⟨h2 () rfl 0 1,
    h5 IntervalType.oo (by decide) (SymVal.fin 0) (SymVal.fin 1) () () rfl rfl⟩

/-- C7: when both bound texts parse to finite reals with a >= b, the
submission handler stops with the inline ordering error and the
classifier is never invoked; consequently, whenever the classifier is
reached with both bounds finite, a < b holds. -/
theorem spec_C7 {E : Type} (eng : SymEngine E) (bp : String → Except Unit SymVal)
    (func_input a_str b_str : String) (tag : IntervalType) (qa qb : ℚ)
    (ha : bp a_str = Except.ok (SymVal.fin qa))
    (hb : bp b_str = Except.ok (SymVal.fin qb)) :
    (qa ≥ qb →
      handleSubmission eng bp func_input a_str b_str tag = SubmitOutcome.orderError) ∧
    (∀ a_sym b_sym r,
      handleSubmission eng bp func_input a_str b_str tag =
        SubmitOutcome.classified a_sym b_sym r →
      a_sym = SymVal.fin qa ∧ b_sym = SymVal.fin qb ∧ qa < qb) := by
  constructor
  · intro hge
    simp [handleSubmission, ha, hb, SymVal.is_real, SymVal.is_infinite, SymVal.evalf, hge]
  · intro a_sym b_sym r hcl
    by_cases hge : qa ≥ qb
    · simp [handleSubmission, ha, hb, SymVal.is_real, SymVal.is_infinite, SymVal.evalf,
        hge] at hcl
    · have hlt : qa < qb := lt_of_not_ge hge
      simp [handleSubmission, ha, hb, SymVal.is_real, SymVal.is_infinite, SymVal.evalf,
        hge] at hcl
      exact ⟨hcl.1.symm, hcl.2.1.symm, hlt⟩

/-- Witness for C7: bounds a = 5, b = 1 are rejected with the ordering
error before classification. -/
theorem spec_C7_witness :
    (5 ≥ (1 : ℚ) →
      handleSubmission engSin bpBasic "sin(x)" "5" "1" IntervalType.cc =
        SubmitOutcome.orderError) ∧
    (∀ a_sym b_sym r,
      handleSubmission engSin bpBasic "sin(x)" "5" "1" IntervalType.cc =
        SubmitOutcome.classified a_sym b_sym r →
      a_sym = SymVal.fin 5 ∧ b_sym = SymVal.fin 1 ∧ (5 : ℚ) < 1) :=
  spec_C7 engSin bpBasic "sin(x)" "5" "1" IntervalType.cc 5 1 rfl rfl

/-- C8: the plot sampler maps every sampled x-value to the evaluated
function value with the two infinities replaced by NaN, so the rendered
series contains no infinite value. -/
theorem spec_C8 (f_lambda : ℚ → NumVal) (x_vals : List ℚ) :
    (∀ i : ℕ, (samplePlotValues f_lambda x_vals)[i]? =
      (x_vals[i]?).map (fun xv =>
        if (f_lambda xv).isinf || (f_lambda xv).isneginf then NumVal.nan
        else f_lambda xv)) ∧
    (∀ y ∈ samplePlotValues f_lambda x_vals, y.isinf = false ∧ y.isneginf = false) := by
  constructor
  · intro i
    simp [samplePlotValues, Option.map_map]
    rfl
  · intro y hy
    simp only [samplePlotValues, List.map_map, List.mem_map, Function.comp] at hy
    obtain ⟨xv, -, hxy⟩ := hy
    by_cases hcase : ((f_lambda xv).isinf || (f_lambda xv).isneginf) = true
    · rw [if_pos hcase] at hxy
      rw [← hxy]
      exact ⟨rfl, rfl⟩
    · rw [if_neg hcase] at hxy
      rw [← hxy]
      simpa using hcase

/-- Witness for C8 on a two-point sample whose first value is infinite. -/
theorem spec_C8_witness :
    (samplePlotValues (fun q => if q = 0 then NumVal.posInf else NumVal.val q) [0, 1])[0]? =
      some NumVal.nan ∧
    ∀ y ∈ samplePlotValues (fun q => if q = 0 then NumVal.posInf else NumVal.val q) [0, 1],
      y.isinf = false ∧ y.isneginf = false := by
  obtain ⟨h1, h2⟩ :=
    spec_C8 (fun q => if q = 0 then NumVal.posInf else NumVal.val q) [0, 1]
  refine ⟨?_, h2⟩
  rw [h1 0]
  decide

/-- Witness for C9 at a concrete engine and input. -/
theorem spec_C9_witness :
    ((check_uniform_continuity engSin "sin(x)" IntervalType.oo SymVal.negInf
        SymVal.posInf).verdict = "오류" ∨
     (check_uniform_continuity engSin "sin(x)" IntervalType.oo SymVal.negInf
        SymVal.posInf).verdict = "판별 불가" ∨
     (check_uniform_continuity engSin "sin(x)" IntervalType.oo SymVal.negInf
        SymVal.posInf).verdict = "평등연속 아님" ∨
     (check_uniform_continuity engSin "sin(x)" IntervalType.oo SymVal.negInf
        SymVal.posInf).verdict = "평등연속") ∧
    (check_uniform_continuity engSin "sin(x)" IntervalType.oo SymVal.negInf
        SymVal.posInf).verdict ≠ "판단 불가" :=
  spec_C9 engSin "sin(x)" IntervalType.oo SymVal.negInf SymVal.posInf

/-- Witness for C10: the cannot-classify result for `sin(x)` on the
closed tag with infinite bounds still carries the parsed expression. -/
theorem spec_C10_witness :
    ((check_uniform_continuity engSin "sin(x)" IntervalType.cc SymVal.negInf
        SymVal.posInf).expr = none ↔
     (check_uniform_continuity engSin "sin(x)" IntervalType.cc SymVal.negInf
        SymVal.posInf).verdict = "오류") ∧
    (check_uniform_continuity engSin "sin(x)" IntervalType.cc SymVal.negInf
        SymVal.posInf).verdict = "판별 불가" ∧
    (check_uniform_continuity engSin "sin(x)" IntervalType.cc SymVal.negInf
        SymVal.posInf).expr = some "sin(x)" := by
  obtain ⟨h1, h2⟩ :=
    spec_C10 engSin "sin(x)" IntervalType.cc SymVal.negInf SymVal.posInf
  exact ⟨h1, h2 "sin(x)" rfl rfl rfl⟩
